import Mathlib

/-!
# AxonFlow governance core: verification development

The repository ships client-side examples of a governed-AI gateway; the
gateway core itself (policy engine, context-ticket store, budget
controller, plan executor, connector parameter binding) is consumed over
HTTP and is not part of the source tree.  Following the specification
(spec.md), which designs that core, we give a shallow embedding of the
core's data model and operations, taking the concrete default behaviour
from the expectation tables of the examples under `examples/` wherever
those bear on it, and prove the specified properties.
-/

namespace AxonFlow

/-! ## Text scanning primitives

Modelled from the spec: the Pattern Library's detection rules (spec §2,
§4.1) are regex matchers; the engine that applies them is not in the
source tree.  We realise each referenced pattern as an executable scanner
over the character list of the query. -/

/-- Lower-cased character list of a string (case-insensitive scanning). -/
def lowerChars (s : String) : List Char :=
  s.data.map Char.toLower

/-- Check `startsWith pat cs` : the character pattern `pat` occurs at the
head of `cs`. -/
def startsWith : List Char → List Char → Bool
  | [], _ => true
  | _ :: _, [] => false
  | p :: ps, c :: cs => p == c && startsWith ps cs

/-- Scan `anyPos p cs` : the position predicate `p` holds at some suffix
of `cs` (i.e. somewhere in the text). -/
def anyPos (p : List Char → Bool) : List Char → Bool
  | [] => p []
  | c :: cs => p (c :: cs) || anyPos p cs

/-- Check `containsPat cs pat` : `pat` occurs as a contiguous substring. -/
def containsPat (cs pat : List Char) : Bool :=
  anyPos (startsWith pat) cs

/-- Skip leading blanks. -/
def skipSpaces : List Char → List Char
  | ' ' :: cs => skipSpaces cs
  | cs => cs

/-! ## PII / SQL-injection detectors

Modelled from the spec: §4.1 names the PII categories (SSN, credit card,
national IDs, email, phone) and the SQL-injection pattern groups
(union-based, stacked/destructive-DDL, comment-bypass, boolean-blind,
time-based).  The concrete regexes live in the absent engine; we model
each as the evident pattern of the examples' test inputs. -/

/-- US SSN shape `ddd-dd-dddd` at the current position. -/
def ssnAt : List Char → Bool
  | a :: b :: c :: '-' :: d :: e :: '-' :: f :: g :: h :: i :: _ =>
    a.isDigit && b.isDigit && c.isDigit && d.isDigit && e.isDigit &&
    f.isDigit && g.isDigit && h.isDigit && i.isDigit
  | _ => false

/-- Modelled from the spec: US Social-Security-number matcher. -/
def detectSSN (q : String) : Bool :=
  anyPos ssnAt q.data

/-- Credit-card shape `dddd-dddd-dddd-dddd` at the current position. -/
def ccAt : List Char → Bool
  | a :: b :: c :: d :: '-' :: e :: f :: g :: h :: '-' ::
      i :: j :: k :: l :: '-' :: m :: n :: o :: p :: _ =>
    a.isDigit && b.isDigit && c.isDigit && d.isDigit &&
    e.isDigit && f.isDigit && g.isDigit && h.isDigit &&
    i.isDigit && j.isDigit && k.isDigit && l.isDigit &&
    m.isDigit && n.isDigit && o.isDigit && p.isDigit
  | _ => false

/-- Modelled from the spec: full credit-card-number matcher. -/
def detectCreditCard (q : String) : Bool :=
  anyPos ccAt q.data

/-- India PAN shape: five letters, four digits, one letter. -/
def panAt : List Char → Bool
  | a :: b :: c :: d :: e :: f :: g :: h :: i :: j :: _ =>
    a.isUpper && b.isUpper && c.isUpper && d.isUpper && e.isUpper &&
    f.isDigit && g.isDigit && h.isDigit && i.isDigit && j.isUpper
  | _ => false

/-- Modelled from the spec: India PAN (national ID) matcher. -/
def detectPAN (q : String) : Bool :=
  anyPos panAt q.data

/-- India Aadhaar shape: `dddd dddd dddd`. -/
def aadhaarAt : List Char → Bool
  | a :: b :: c :: d :: ' ' :: e :: f :: g :: h :: ' ' ::
      i :: j :: k :: l :: _ =>
    a.isDigit && b.isDigit && c.isDigit && d.isDigit &&
    e.isDigit && f.isDigit && g.isDigit && h.isDigit &&
    i.isDigit && j.isDigit && k.isDigit && l.isDigit
  | _ => false

/-- Modelled from the spec: India Aadhaar (national ID) matcher. -/
def detectAadhaar (q : String) : Bool :=
  anyPos aadhaarAt q.data

/-- A character that may appear on either side of the `@` of an email. -/
def emailChar (c : Char) : Bool :=
  c.isAlphanum || c == '.' || c == '_' || c == '-'

/-- Email shape: an email character, `@`, an email character. -/
def emailAt : List Char → Bool
  | a :: '@' :: b :: _ => emailChar a && emailChar b
  | _ => false

/-- Modelled from the spec: email-address matcher. -/
def detectEmail (q : String) : Bool :=
  anyPos emailAt q.data

/-- Phone shape `ddd-ddd-dddd` at the current position. -/
def phoneAt : List Char → Bool
  | a :: b :: c :: '-' :: d :: e :: f :: '-' :: g :: h :: i :: j :: _ =>
    a.isDigit && b.isDigit && c.isDigit && d.isDigit && e.isDigit &&
    f.isDigit && g.isDigit && h.isDigit && i.isDigit && j.isDigit
  | _ => false

/-- Modelled from the spec: phone-number matcher. -/
def detectPhone (q : String) : Bool :=
  anyPos phoneAt q.data

/-- Destructive stacked statement: a `;` followed (after blanks) by
`drop`, `delete` or `truncate` (case-insensitive via `lowerChars`). -/
def destructiveAt : List Char → Bool
  | ';' :: cs =>
    let rest := skipSpaces cs
    startsWith "drop".data rest || startsWith "delete".data rest ||
      startsWith "truncate".data rest
  | _ => false

/-- Modelled from the spec: destructive-DDL / stacked-statement
SQL-injection matcher. -/
def detectDestructiveDDL (q : String) : Bool :=
  anyPos destructiveAt (lowerChars q)

/-- Modelled from the spec: union-based SQL-injection matcher. -/
def detectUnionBased (q : String) : Bool :=
  containsPat (lowerChars q) "union select".data

/-- Modelled from the spec: boolean-blind SQL-injection matcher. -/
def detectBooleanBlind (q : String) : Bool :=
  containsPat (lowerChars q) "or 1=1".data ||
    containsPat (lowerChars q) "or \x271\x27=\x271\x27".data

/-- Modelled from the spec: time-based SQL-injection matcher. -/
def detectTimeBased (q : String) : Bool :=
  containsPat (lowerChars q) "waitfor delay".data ||
    containsPat (lowerChars q) "sleep(".data

/-- Modelled from the spec: comment-bypass SQL-injection matcher (a
trailing `--` comment marker). -/
def detectCommentBypass (q : String) : Bool :=
  containsPat (lowerChars q) "--".data

/-! ## Policy engine

Modelled from the spec: the Policy Engine (§4.1) is absent from the
source tree; `evaluate(query, context) -> Decision` scans the query text
against the effective policy set.  A request is blocked if any matched
policy whose action is `block` matches; `flag`-only policies surface in
`matched_policies` without setting `approved := false`.  The default
actions are taken from the expectation tables of
`examples/pii-detection/python/main.py` and
`examples/sqli-detection/python/main.py`. -/

inductive Severity
  | low
  | medium
  | high
  | critical
deriving DecidableEq, Repr

inductive PolicyAction
  | allow
  | block
  | redact
  | flag
  | requireApproval
deriving DecidableEq, Repr, BEq

structure Policy where
  id : String
  name : String
  category : String
  severity : Severity
  action : PolicyAction
  enabled : Bool
  matcher : String → Bool

/-- Result of evaluating one request (spec §3 `Decision`);
`blockReasons` holds the human-readable names of the matched blocking
policies from which the user-visible `block_reason` text is assembled. -/
structure Decision where
  approved : Bool
  matchedPolicies : List String
  blockReasons : List String
deriving Repr, DecidableEq

def ssnPolicy : Policy :=
  ⟨"sys_pii_ssn", "US Social Security Number (SSN) detected", "pii",
    Severity.critical, PolicyAction.block, true, detectSSN⟩

def creditCardPolicy : Policy :=
  ⟨"sys_pii_credit_card", "Credit card number detected", "pii",
    Severity.critical, PolicyAction.block, true, detectCreditCard⟩

def panPolicy : Policy :=
  ⟨"sys_pii_pan", "India PAN detected", "pii",
    Severity.high, PolicyAction.block, true, detectPAN⟩

def aadhaarPolicy : Policy :=
  ⟨"sys_pii_aadhaar", "India Aadhaar detected", "pii",
    Severity.high, PolicyAction.block, true, detectAadhaar⟩

/-- Default action `block`, per the expectation table of
`examples/pii-detection/python/main.py` (email `should_block: True`);
note `examples/llm-providers/azure-openai/pii-detection` and spec §4.1
instead describe email as warn-only. -/
def emailPolicy : Policy :=
  ⟨"sys_pii_email", "Email address detected", "pii",
    Severity.medium, PolicyAction.block, true, detectEmail⟩

/-- Warn-only: surfaces but never blocks
(`sys_pii_phone policy warns but doesn't block`). -/
def phonePolicy : Policy :=
  ⟨"sys_pii_phone", "Phone number detected", "pii",
    Severity.low, PolicyAction.flag, true, detectPhone⟩

def sqliDestructivePolicy : Policy :=
  ⟨"sys_sqli_destructive", "SQL injection: destructive DDL / stacked statement", "sqli",
    Severity.critical, PolicyAction.block, true, detectDestructiveDDL⟩

def sqliUnionPolicy : Policy :=
  ⟨"sys_sqli_union", "SQL injection: UNION-based", "sqli",
    Severity.high, PolicyAction.block, true, detectUnionBased⟩

def sqliBooleanPolicy : Policy :=
  ⟨"sys_sqli_boolean", "SQL injection: boolean-blind", "sqli",
    Severity.high, PolicyAction.block, true, detectBooleanBlind⟩

def sqliTimePolicy : Policy :=
  ⟨"sys_sqli_time", "SQL injection: time-based", "sqli",
    Severity.high, PolicyAction.block, true, detectTimeBased⟩

/-- Flag-only by default: comment-based bypass is not blocked
(`Comment injection not currently detected by default policies`,
`examples/sqli-detection/python/main.py`). -/
def sqliCommentPolicy : Policy :=
  ⟨"sys_sqli_comment", "SQL injection: comment bypass", "sqli",
    Severity.low, PolicyAction.flag, true, detectCommentBypass⟩

/-- Modelled from the spec: the effective default policy set, ordered by
severity descending (spec §3). -/
def defaultPolicies : List Policy :=
  [sqliDestructivePolicy, ssnPolicy, creditCardPolicy,
   panPolicy, aadhaarPolicy, sqliUnionPolicy, sqliBooleanPolicy,
   sqliTimePolicy, emailPolicy, phonePolicy, sqliCommentPolicy]

/-- Modelled from the spec: `evaluate(query, context) -> Decision`
(§4.1).  The `ctx` map is carried per the contract but input scanning
looks only at the query text. -/
def evaluate (policies : List Policy) (q : String)
    (_ctx : List (String × String)) : Decision :=
  let matched := policies.filter fun p => p.enabled && p.matcher q
  let blocking := matched.filter fun p => p.action == PolicyAction.block
  { approved := blocking.isEmpty
    matchedPolicies := matched.map Policy.id
    blockReasons := blocking.map Policy.name }

/-! ## Context Ticket Store

Modelled from the spec: the Context Ticket Store (§4.2) is absent from
the source tree; only the gateway-mode callers that consume
`get_policy_approved_context` / `audit_llm_call` are present.  Time is
an abstract `Nat` clock. -/

structure Ticket where
  contextId : String
  createdAt : Nat
  ttl : Nat
  used : Bool
deriving DecidableEq, Repr

abbrev TicketStore := List Ticket

structure TokenUsage where
  promptTokens : Nat
  completionTokens : Nat
  totalTokens : Nat
deriving DecidableEq, Repr

/-- The audit payload the caller submits at redeem time (spec §6
`audit(context_id, response_summary, provider, model, token_usage,
latency_ms)`). -/
structure AuditPayload where
  responseSummary : String
  provider : String
  model : String
  tokenUsage : TokenUsage
  latencyMs : Nat
deriving DecidableEq, Repr

/-- An Audit Record (spec §3); `contextId` is `none` on the one-shot
path and set on gateway-path redemption. -/
structure AuditRecord where
  contextId : Option String
  provider : String
  model : String
  tokenUsage : TokenUsage
  latencyMs : Nat
deriving DecidableEq, Repr

inductive RedeemError
  | ticketUnknown
  | ticketAlreadyUsed
  | ticketExpired
deriving DecidableEq, Repr

/-- Modelled from the spec: `issue(decision) -> context_id` (§4.2);
called only on an approved decision, it stores a fresh unused ticket. -/
def issue (st : TicketStore) (cid : String) (now ttl : Nat) : TicketStore :=
  ⟨cid, now, ttl, false⟩ :: st

def lookupTicket (st : TicketStore) (cid : String) : Option Ticket :=
  st.find? fun t => t.contextId == cid

def markUsed : TicketStore → String → TicketStore
  | [], _ => []
  | t :: ts, cid =>
    (if t.contextId == cid then { t with used := true } else t) :: markUsed ts cid

/-- Modelled from the spec: `redeem(context_id, audit_payload) ->
AuditRecord | Error` (§4.2).  A ticket is redeemable at most once and
only before `created_at + ttl` elapses; a second attempt fails with
`TicketAlreadyUsed`, an expired unused ticket with `TicketExpired`. -/
def redeem (st : TicketStore) (cid : String) (now : Nat)
    (payload : AuditPayload) : Except RedeemError (AuditRecord × TicketStore) :=
  match lookupTicket st cid with
  | none => Except.error RedeemError.ticketUnknown
  | some t =>
    if t.used then Except.error RedeemError.ticketAlreadyUsed
    else if t.createdAt + t.ttl ≤ now then Except.error RedeemError.ticketExpired
    else
      Except.ok
        ({ contextId := some cid
           provider := payload.provider
           model := payload.model
           tokenUsage := payload.tokenUsage
           latencyMs := payload.latencyMs }, markUsed st cid)

/-! ## Pre-check surface

Modelled from the spec: `precheck(user_token, query, context) ->
{approved, context_id, block_reason?, policies}` (§6); a Context Ticket
is created only on `approved = true` (spec §3). -/

structure PrecheckResult where
  approved : Bool
  contextId : Option String
  blockReasons : List String
  policies : List String
deriving Repr, DecidableEq

def precheck (policies : List Policy) (st : TicketStore) (cid : String)
    (now ttl : Nat) (q : String) (ctx : List (String × String)) :
    PrecheckResult × TicketStore :=
  let d := evaluate policies q ctx
  if d.approved then
    ({ approved := true, contextId := some cid
       blockReasons := d.blockReasons, policies := d.matchedPolicies },
     issue st cid now ttl)
  else
    ({ approved := false, contextId := none
       blockReasons := d.blockReasons, policies := d.matchedPolicies },
     st)

/-! ## Connector parameter binding

Modelled from the spec: the connector executor's `buildArgs` (§4.6, Go
agent, issue #281) is absent from the source tree; named parameters are
sorted lexicographically by name and assigned to positional
placeholders 1..N in that order. -/

/-- Codepoint-wise lexicographic order on character lists (the order in
which the connector agent sorts parameter names). -/
def lexLe : List Char → List Char → Bool
  | [], _ => true
  | _ :: _, [] => false
  | a :: as, b :: bs =>
    if a.toNat < b.toNat then true
    else if b.toNat < a.toNat then false
    else lexLe as bs

/-- Lexicographic order on parameter names. -/
def keyLe (a b : String) : Bool :=
  lexLe a.data b.data

/-- Named parameters sorted lexicographically by name. -/
def sortParams (params : List (String × String)) : List (String × String) :=
  params.insertionSort fun p q => keyLe p.1 q.1 = true

/-- Positional argument list: values in lexicographic key order;
the i-th element is bound to placeholder `$(i+1)`. -/
def buildArgs (params : List (String × String)) : List String :=
  (sortParams params).map Prod.snd

/-! ## Budget controller

Modelled from the spec: the Budget Controller (§4.4) is absent from the
source tree; only the SDK caller `examples/cost-controls/python/main.py`
is present.  Monetary amounts are integer cents; a percentage threshold
`t` of the limit is crossed at usage `u` when `t * limit ≤ 100 * u`. -/

inductive BudgetOnExceed
  | warn
  | block
deriving DecidableEq, Repr

structure Budget where
  limit : Nat
  onExceed : BudgetOnExceed
  alertThresholds : List Nat
deriving DecidableEq, Repr

/-- Cached per-period state: usage counter plus the thresholds already
alerted this period (both reset at the period boundary). -/
structure BudgetState where
  usage : Nat
  alerted : List Nat
deriving DecidableEq, Repr

/-- State at the start of a period. -/
def freshPeriod : BudgetState := ⟨0, []⟩

structure BudgetDecision where
  allowed : Bool
  action : String
deriving DecidableEq, Repr

/-- Modelled from the spec: `check(scope) -> {allowed, action, message}`
(§4.4); `block` budgets deny once cumulative period usage reaches the
limit, `warn` budgets always allow. -/
def check (b : Budget) (st : BudgetState) : BudgetDecision :=
  if b.onExceed == BudgetOnExceed.block && b.limit ≤ st.usage then
    ⟨false, "block"⟩
  else if b.limit ≤ st.usage then ⟨true, "warn"⟩
  else ⟨true, "allow"⟩

/-- Threshold `t` (percent) is crossed at usage `u`. -/
def crossed (b : Budget) (t u : Nat) : Bool :=
  t * b.limit ≤ 100 * u

/-- Modelled from the spec: `record(cost)` updates the cached usage
counter and emits an alert for every configured threshold newly crossed
and not yet alerted this period (§4.4).  Returns the new state and the
alerts emitted by this call. -/
def recordCost (b : Budget) (st : BudgetState) (c : Nat) :
    BudgetState × List Nat :=
  let u := st.usage + c
  let fired := b.alertThresholds.filter fun t =>
    crossed b t u && !st.alerted.contains t
  (⟨u, st.alerted ++ fired⟩, fired)

/-- Run a sequence of recorded costs within one period, collecting all
alerts emitted along the way. -/
def runBudget (b : Budget) : BudgetState → List Nat → BudgetState × List Nat
  | st, [] => (st, [])
  | st, c :: cs =>
    let r := recordCost b st c
    let rest := runBudget b r.1 cs
    (rest.1, r.2 ++ rest.2)

/-! ## Plan executor

Modelled from the spec: the Plan Executor (§4.6) and Plan Generator
validation (§4.5) are absent from the source tree; only workflow/MAP
callers are present.  Steps are identified by their position in the
plan's step list; `dependsOn` holds positions.  The external outcome of
running a step (LLM/connector success or failure) is an oracle
`Nat → Bool`.  The scheduler is modelled deterministically: final step
statuses are order-insensitive for topologically listed plans, matching
§5's guarantee that a step never begins before its dependencies reach a
terminal state. -/

inductive StepStatus
  | pending
  | running
  | completed
  | failed
  | skipped
deriving DecidableEq, Repr

structure Step where
  name : String
  dependsOn : List Nat
  optional : Bool
deriving DecidableEq, Repr

/-- Dependency positions of the step at position `i` (empty when out of
range). -/
def depsAt (plan : List Step) (i : Nat) : List Nat :=
  match plan[i]? with
  | some s => s.dependsOn
  | none => []

/-- A dependency at position `d` blocks its dependents when it ended
`skipped`, or `failed` while non-optional (spec §4.6). -/
def depBlocks (plan : List Step) (acc : List StepStatus) (d : Nat) : Bool :=
  match acc[d]? with
  | none => true
  | some StepStatus.skipped => true
  | some StepStatus.failed =>
    match plan[d]? with
    | some sd => !sd.optional
    | none => true
  | some _ => false

/-- Final status of the step at position `i`, given the statuses `acc`
of all earlier steps: `skipped` when some dependency blocks, otherwise
`completed`/`failed` per the step's external outcome. -/
def stepOutcome (plan : List Step) (oracle : Nat → Bool)
    (acc : List StepStatus) (i : Nat) : StepStatus :=
  match plan[i]? with
  | none => StepStatus.pending
  | some s =>
    if s.dependsOn.any (depBlocks plan acc) then StepStatus.skipped
    else if oracle i then StepStatus.completed
    else StepStatus.failed

/-- Statuses of the first `n` steps, computed in topological (list)
order. -/
def statusesUpTo (plan : List Step) (oracle : Nat → Bool) : Nat → List StepStatus
  | 0 => []
  | n + 1 =>
    statusesUpTo plan oracle n ++
      [stepOutcome plan oracle (statusesUpTo plan oracle n) n]

/-- Final status of step `i` in a full run of the plan. -/
def stepStatusOf (plan : List Step) (oracle : Nat → Bool) (i : Nat) : StepStatus :=
  (statusesUpTo plan oracle plan.length).getD i StepStatus.pending

inductive ExecStatus
  | completed
  | mixedOutcome
  | failed
deriving DecidableEq, Repr

/-- Some required (non-optional) step ended `failed`. -/
def requiredFailed (plan : List Step) (oracle : Nat → Bool) : Bool :=
  (List.range plan.length).any fun i =>
    match plan[i]? with
    | some s => !s.optional && (stepStatusOf plan oracle i == StepStatus.failed)
    | none => false

/-- Modelled from the spec: the run's final status is `completed` only
if no required step failed (§4.6); `mixedOutcome` stands for the spec's
partially-completed terminal state. -/
def finalStatus (plan : List Step) (oracle : Nat → Bool) : ExecStatus :=
  if requiredFailed plan oracle then
    if (List.range plan.length).any
        (fun i => stepStatusOf plan oracle i == StepStatus.completed) then
      ExecStatus.mixedOutcome
    else ExecStatus.failed
  else ExecStatus.completed

/-- The plan is listed in topological order: every dependency of a step
refers to an earlier position. -/
def topoSortedB (plan : List Step) : Bool :=
  (List.range plan.length).all fun j =>
    (depsAt plan j).all fun d => decide (d < j)

/-- Relation: `j` transitively depends on `i` (the `DependsOn` closure of the
step graph's `depends_on` edges). -/
inductive DependsOn (plan : List Step) : Nat → Nat → Prop
  | direct {i j : Nat} {s : Step} :
      plan[j]? = some s → i ∈ s.dependsOn → DependsOn plan j i
  | trans {i j k : Nat} {s : Step} :
      plan[j]? = some s → k ∈ s.dependsOn → DependsOn plan k i →
      DependsOn plan j i

/-! ### Plan validation (DAG well-formedness)

Modelled from the spec: the generator validates the returned graph and
rejects malformed (cyclic) graphs rather than executing them (§4.5).
Validation runs Kahn-style elimination: repeatedly remove steps all of
whose dependencies are already removed; the graph is a DAG exactly when
every step is eventually removed. -/

def allDepsRemoved (removed : List Nat) (s : Step) : Bool :=
  s.dependsOn.all fun d => removed.contains d

/-- One elimination round: adds every not-yet-removed step all of whose
dependencies are removed. -/
def elimRound (plan : List Step) (removed : List Nat) : List Nat :=
  removed ++ ((List.range plan.length).filter fun i =>
    !removed.contains i &&
      (match plan[i]? with
       | some s => allDepsRemoved removed s
       | none => false))

def elimIter (plan : List Step) : Nat → List Nat
  | 0 => []
  | n + 1 => elimRound plan (elimIter plan n)

/-- The step graph is a DAG: `plan.length` elimination rounds remove
every step. -/
def validatePlan (plan : List Step) : Bool :=
  (List.range plan.length).all fun i =>
    (elimIter plan plan.length).contains i

inductive PlanError
  | malformedPlan
deriving DecidableEq, Repr

/-- Modelled from the spec: `execute_plan` validates first and never
runs a malformed plan (§4.5, §7 `MalformedPlan`). -/
def executePlan (plan : List Step) (oracle : Nat → Bool) :
    Except PlanError (List StepStatus × ExecStatus) :=
  if validatePlan plan then
    Except.ok (statusesUpTo plan oracle plan.length, finalStatus plan oracle)
  else Except.error PlanError.malformedPlan

/-! ## Helper lemmas -/

theorem isEmpty_false_of_mem {α : Type _} {a : α} {l : List α} (h : a ∈ l) :
    l.isEmpty = false := by
  cases l with
  | nil => cases h
  | cons x xs => rfl

/-- A used ticket stays findable, with its `used` flag set. -/
theorem lookupTicket_markUsed (st : TicketStore) (cid : String) :
    lookupTicket (markUsed st cid) cid =
      (lookupTicket st cid).map fun t => { t with used := true } := by
  induction st with
  | nil => rfl
  | cons t ts ih =>
    by_cases h : (t.contextId == cid) = true
    · simp [markUsed, lookupTicket, List.find?, h]
    · simp only [markUsed, lookupTicket, List.find?] at *
      simp [h, ih]

/-- C1: a Context Ticket found unused is redeemed successfully exactly
when redeemed before `created_at + ttl` elapses, the produced Audit
Record carries that `context_id`, every subsequent redeem of the same
`context_id` fails with `TicketAlreadyUsed`, and redeeming an unused
ticket at or after `created_at + ttl` fails with `TicketExpired`. -/
theorem ticket_redeem_once_and_expiry
    (st : TicketStore) (cid : String) (t : Ticket) (now : Nat)
    (payload : AuditPayload)
    (hfind : lookupTicket st cid = some t) (hunused : t.used = false) :
    (now < t.createdAt + t.ttl →
      redeem st cid now payload =
        Except.ok
          ({ contextId := some cid, provider := payload.provider
             model := payload.model, tokenUsage := payload.tokenUsage
             latencyMs := payload.latencyMs }, markUsed st cid) ∧
      ∀ (now' : Nat) (payload' : AuditPayload),
        redeem (markUsed st cid) cid now' payload' =
          Except.error RedeemError.ticketAlreadyUsed) ∧
    (t.createdAt + t.ttl ≤ now →
      redeem st cid now payload = Except.error RedeemError.ticketExpired) := by
  constructor
  · intro hlt
    constructor
    · unfold redeem
      rw [hfind]
      simp [hunused, Nat.not_le.mpr hlt]
    · intro now' payload'
      unfold redeem
      rw [lookupTicket_markUsed, hfind]
      simp
  · intro hle
    unfold redeem
    rw [hfind]
    simp [hunused, hle]

/-- C1 witness: a concrete single-ticket store with `ttl = 60`; redeem
at time 10 succeeds with the ticket's context id, a second redeem at
time 20 fails `TicketAlreadyUsed`, and a fresh ticket redeemed at time
60 fails `TicketExpired`. -/
theorem ticket_redeem_once_and_expiry_witness :
    redeem [⟨"ctx-1", 0, 60, false⟩] "ctx-1" 10 ⟨"s", "openai", "gpt", ⟨20, 30, 50⟩, 400⟩ =
      Except.ok
        ({ contextId := some "ctx-1", provider := "openai", model := "gpt"
           tokenUsage := ⟨20, 30, 50⟩, latencyMs := 400 },
         markUsed [⟨"ctx-1", 0, 60, false⟩] "ctx-1") ∧
    redeem (markUsed [⟨"ctx-1", 0, 60, false⟩] "ctx-1") "ctx-1" 20
        ⟨"s2", "openai", "gpt", ⟨1, 2, 3⟩, 10⟩ =
      Except.error RedeemError.ticketAlreadyUsed ∧
    redeem [⟨"ctx-2", 0, 60, false⟩] "ctx-2" 60 ⟨"s", "openai", "gpt", ⟨20, 30, 50⟩, 400⟩ =
      Except.error RedeemError.ticketExpired :=
  ⟨((ticket_redeem_once_and_expiry [⟨"ctx-1", 0, 60, false⟩] "ctx-1" ⟨"ctx-1", 0, 60, false⟩
      10 ⟨"s", "openai", "gpt", ⟨20, 30, 50⟩, 400⟩ rfl rfl).1 (by decide)).1,
   ((ticket_redeem_once_and_expiry [⟨"ctx-1", 0, 60, false⟩] "ctx-1" ⟨"ctx-1", 0, 60, false⟩
      10 ⟨"s", "openai", "gpt", ⟨20, 30, 50⟩, 400⟩ rfl rfl).1 (by decide)).2 20
      ⟨"s2", "openai", "gpt", ⟨1, 2, 3⟩, 10⟩,
   (ticket_redeem_once_and_expiry [⟨"ctx-2", 0, 60, false⟩] "ctx-2" ⟨"ctx-2", 0, 60, false⟩
      60 ⟨"s", "openai", "gpt", ⟨20, 30, 50⟩, 400⟩ rfl rfl).2 (by decide)⟩

/-- C10: binding accepts the boundary arities: one named parameter is
bound to position 1, and the empty parameter map yields the empty
positional assignment; neither is an error. -/
theorem param_binding_boundary_arities :
    buildArgs [("only_param", "SINGLE")] = ["SINGLE"] ∧
    buildArgs ([] : List (String × String)) = [] :=
  ⟨rfl, rfl⟩

/-- C4: a query containing a US SSN pattern is blocked by `precheck`:
`approved = false`, no Context Ticket is issued (the ticket store is
unchanged and `context_id` is `none`), and some surfaced block reason
mentions SSN. -/
theorem ssn_precheck_blocks (q : String) (st : TicketStore) (cid : String)
    (now ttl : Nat) (ctx : List (String × String))
    (hssn : detectSSN q = true) :
    (precheck defaultPolicies st cid now ttl q ctx).1.approved = false ∧
    (precheck defaultPolicies st cid now ttl q ctx).1.contextId = none ∧
    (precheck defaultPolicies st cid now ttl q ctx).2 = st ∧
    ∃ r ∈ (precheck defaultPolicies st cid now ttl q ctx).1.blockReasons,
      containsPat r.data "SSN".data = true := by
  have hmem : ssnPolicy ∈ ((defaultPolicies.filter fun p => p.enabled && p.matcher q).filter
      fun p => p.action == PolicyAction.block) := by
    refine List.mem_filter.mpr ⟨List.mem_filter.mpr ⟨?_, ?_⟩, rfl⟩
    · simp [defaultPolicies]
    · simp [ssnPolicy, hssn]
  have happr : (evaluate defaultPolicies q ctx).approved = false := by
    simp only [evaluate]
    exact isEmpty_false_of_mem hmem
  have hname : ssnPolicy.name ∈ (evaluate defaultPolicies q ctx).blockReasons := by
    simp only [evaluate]
    exact List.mem_map_of_mem _ hmem
  refine ⟨?_, ?_, ?_, ?_⟩
  · simp [precheck, happr]
  · simp [precheck, happr]
  · simp [precheck, happr]
  · simp only [precheck, happr]
    exact ⟨ssnPolicy.name, by simpa using hname, by decide⟩

/-- C4 witness: the spec's end-to-end scenario query. -/
theorem ssn_precheck_blocks_witness :
    (precheck defaultPolicies [] "ctx-1" 0 60 "My SSN is 123-45-6789" []).1.approved = false ∧
    (precheck defaultPolicies [] "ctx-1" 0 60 "My SSN is 123-45-6789" []).1.contextId = none ∧
    (precheck defaultPolicies [] "ctx-1" 0 60 "My SSN is 123-45-6789" []).2 = [] ∧
    ∃ r ∈ (precheck defaultPolicies [] "ctx-1" 0 60 "My SSN is 123-45-6789" []).1.blockReasons,
      containsPat r.data "SSN".data = true :=
  ssn_precheck_blocks "My SSN is 123-45-6789" [] "ctx-1" 0 60 [] (by decide)

/-- C6: a query containing a destructive stacked SQL statement is
blocked under the destructive-DDL SQL-injection category, for every
context map attached to the request. -/
theorem destructive_sql_blocked (q : String) (ctx : List (String × String))
    (hdet : detectDestructiveDDL q = true) :
    (evaluate defaultPolicies q ctx).approved = false ∧
    sqliDestructivePolicy.name ∈ (evaluate defaultPolicies q ctx).blockReasons ∧
    sqliDestructivePolicy.id ∈ (evaluate defaultPolicies q ctx).matchedPolicies ∧
    sqliDestructivePolicy.category = "sqli" := by
  have hmem0 : sqliDestructivePolicy ∈
      (defaultPolicies.filter fun p => p.enabled && p.matcher q) := by
    refine List.mem_filter.mpr ⟨?_, ?_⟩
    · simp [defaultPolicies]
    · simp [sqliDestructivePolicy, hdet]
  have hmem : sqliDestructivePolicy ∈
      ((defaultPolicies.filter fun p => p.enabled && p.matcher q).filter
        fun p => p.action == PolicyAction.block) :=
    List.mem_filter.mpr ⟨hmem0, rfl⟩
  refine ⟨?_, ?_, ?_, rfl⟩
  · simp only [evaluate]
    exact isEmpty_false_of_mem hmem
  · simp only [evaluate]
    exact List.mem_map_of_mem _ hmem
  · simp only [evaluate]
    exact List.mem_map_of_mem _ hmem0

/-- C6 witness: the spec's end-to-end scenario query, with a nonempty
connector/provider context attached. -/
theorem destructive_sql_blocked_witness :
    (evaluate defaultPolicies "SELECT * FROM users; DROP TABLE users;--"
        [("connector", "postgres"), ("provider", "openai")]).approved = false ∧
    sqliDestructivePolicy.name ∈
      (evaluate defaultPolicies "SELECT * FROM users; DROP TABLE users;--"
        [("connector", "postgres"), ("provider", "openai")]).blockReasons ∧
    sqliDestructivePolicy.id ∈
      (evaluate defaultPolicies "SELECT * FROM users; DROP TABLE users;--"
        [("connector", "postgres"), ("provider", "openai")]).matchedPolicies ∧
    sqliDestructivePolicy.category = "sqli" :=
  destructive_sql_blocked "SELECT * FROM users; DROP TABLE users;--"
    [("connector", "postgres"), ("provider", "openai")] (by decide)

/-- C7: a query on which no blocking matcher fires and whose only
SQL-injection signal is the comment-based bypass pattern is approved
under the default policy set. -/
theorem comment_bypass_not_blocked (q : String) (ctx : List (String × String))
    (h1 : detectSSN q = false) (h2 : detectCreditCard q = false)
    (h3 : detectPAN q = false) (h4 : detectAadhaar q = false)
    (h5 : detectEmail q = false) (h6 : detectDestructiveDDL q = false)
    (h7 : detectUnionBased q = false) (h8 : detectBooleanBlind q = false)
    (h9 : detectTimeBased q = false)
    (hc : detectCommentBypass q = true) :
    (evaluate defaultPolicies q ctx).approved = true ∧
    sqliCommentPolicy.id ∈ (evaluate defaultPolicies q ctx).matchedPolicies := by
  have hblocking : ((defaultPolicies.filter fun p => p.enabled && p.matcher q).filter
      fun p => p.action == PolicyAction.block) = [] := by
    rw [List.filter_eq_nil_iff]
    intro p hp
    obtain ⟨hpd, hpq⟩ := List.mem_filter.mp hp
    simp only [defaultPolicies, List.mem_cons, List.not_mem_nil, or_false] at hpd
    rcases hpd with rfl | rfl | rfl | rfl | rfl | rfl | rfl | rfl | rfl | rfl | rfl
    · simp [sqliDestructivePolicy, h6] at hpq
    · simp [ssnPolicy, h1] at hpq
    · simp [creditCardPolicy, h2] at hpq
    · simp [panPolicy, h3] at hpq
    · simp [aadhaarPolicy, h4] at hpq
    · simp [sqliUnionPolicy, h7] at hpq
    · simp [sqliBooleanPolicy, h8] at hpq
    · simp [sqliTimePolicy, h9] at hpq
    · simp [emailPolicy, h5] at hpq
    · decide
    · decide
  have hmem0 : sqliCommentPolicy ∈
      (defaultPolicies.filter fun p => p.enabled && p.matcher q) := by
    refine List.mem_filter.mpr ⟨?_, ?_⟩
    · simp [defaultPolicies]
    · simp [sqliCommentPolicy, hc]
  constructor
  · simp only [evaluate]
    rw [hblocking]
    rfl
  · simp only [evaluate]
    exact List.mem_map_of_mem _ hmem0

/-- C7 witness: the observed example query, whose only signal is the
trailing comment marker. -/
theorem comment_bypass_not_blocked_witness :
    (evaluate defaultPolicies
        "SELECT * FROM users WHERE name=\x27admin\x27-- AND password=\x27secret\x27"
        []).approved = true ∧
    sqliCommentPolicy.id ∈
      (evaluate defaultPolicies
        "SELECT * FROM users WHERE name=\x27admin\x27-- AND password=\x27secret\x27"
        []).matchedPolicies :=
  comment_bypass_not_blocked
    "SELECT * FROM users WHERE name=\x27admin\x27-- AND password=\x27secret\x27" []
    (by decide) (by decide) (by decide) (by decide) (by decide) (by decide)
    (by decide) (by decide) (by decide) (by decide)

/-- C3 counterexample: an email-only query (every other matcher is
false) is nevertheless blocked and gets no Context Ticket — the claim
that email is warn-only fails on the default actions encoded in
`examples/pii-detection/python/main.py`. -/
theorem pii_email_warn_counterexample :
    detectEmail "Send invoice to john.doe@example.com" = true ∧
    detectPhone "Send invoice to john.doe@example.com" = false ∧
    detectSSN "Send invoice to john.doe@example.com" = false ∧
    detectCreditCard "Send invoice to john.doe@example.com" = false ∧
    detectPAN "Send invoice to john.doe@example.com" = false ∧
    detectAadhaar "Send invoice to john.doe@example.com" = false ∧
    detectDestructiveDDL "Send invoice to john.doe@example.com" = false ∧
    detectUnionBased "Send invoice to john.doe@example.com" = false ∧
    detectBooleanBlind "Send invoice to john.doe@example.com" = false ∧
    detectTimeBased "Send invoice to john.doe@example.com" = false ∧
    (precheck defaultPolicies [] "ctx-1" 0 60
      "Send invoice to john.doe@example.com" []).1.approved = false ∧
    (precheck defaultPolicies [] "ctx-1" 0 60
      "Send invoice to john.doe@example.com" []).1.contextId = none := by
  decide

/-- C3 amended: under the default policy set, phone is warn-only (a
query whose only PII is a phone number is approved, with the phone
policy surfaced in the returned policy list), while email is a blocking
category (a query containing an email address is blocked). -/
theorem pii_phone_warn_email_block :
    (∀ (q : String) (ctx : List (String × String)),
      detectSSN q = false → detectCreditCard q = false →
      detectPAN q = false → detectAadhaar q = false →
      detectEmail q = false → detectDestructiveDDL q = false →
      detectUnionBased q = false → detectBooleanBlind q = false →
      detectTimeBased q = false → detectPhone q = true →
      (evaluate defaultPolicies q ctx).approved = true ∧
      phonePolicy.id ∈ (evaluate defaultPolicies q ctx).matchedPolicies) ∧
    (∀ (q : String) (ctx : List (String × String)),
      detectEmail q = true →
      (evaluate defaultPolicies q ctx).approved = false) := by
  constructor
  · intro q ctx h1 h2 h3 h4 h5 h6 h7 h8 h9 hp
    have hblocking : ((defaultPolicies.filter fun p => p.enabled && p.matcher q).filter
        fun p => p.action == PolicyAction.block) = [] := by
      rw [List.filter_eq_nil_iff]
      intro p hmem
      obtain ⟨hpd, hpq⟩ := List.mem_filter.mp hmem
      simp only [defaultPolicies, List.mem_cons, List.not_mem_nil, or_false] at hpd
      rcases hpd with rfl | rfl | rfl | rfl | rfl | rfl | rfl | rfl | rfl | rfl | rfl
      · simp [sqliDestructivePolicy, h6] at hpq
      · simp [ssnPolicy, h1] at hpq
      · simp [creditCardPolicy, h2] at hpq
      · simp [panPolicy, h3] at hpq
      · simp [aadhaarPolicy, h4] at hpq
      · simp [sqliUnionPolicy, h7] at hpq
      · simp [sqliBooleanPolicy, h8] at hpq
      · simp [sqliTimePolicy, h9] at hpq
      · simp [emailPolicy, h5] at hpq
      · decide
      · decide
    have hmem0 : phonePolicy ∈
        (defaultPolicies.filter fun p => p.enabled && p.matcher q) := by
      refine List.mem_filter.mpr ⟨?_, ?_⟩
      · simp [defaultPolicies]
      · simp [phonePolicy, hp]
    constructor
    · simp only [evaluate]
      rw [hblocking]
      rfl
    · simp only [evaluate]
      exact List.mem_map_of_mem _ hmem0
  · intro q ctx he
    have hmem : emailPolicy ∈ ((defaultPolicies.filter fun p => p.enabled && p.matcher q).filter
        fun p => p.action == PolicyAction.block) := by
      refine List.mem_filter.mpr ⟨List.mem_filter.mpr ⟨?_, ?_⟩, rfl⟩
      · simp [defaultPolicies]
      · simp [emailPolicy, he]
    simp only [evaluate]
    exact isEmpty_false_of_mem hmem

theorem lexLe_total : ∀ x y : List Char, lexLe x y = true ∨ lexLe y x = true
  | [], _ => Or.inl rfl
  | _ :: _, [] => Or.inr rfl
  | a :: as, b :: bs => by
    rcases Nat.lt_trichotomy a.toNat b.toNat with h | h | h
    · left
      simp [lexLe, h]
    · have h1 : ¬ a.toNat < b.toNat := by omega
      have h2 : ¬ b.toNat < a.toNat := by omega
      rcases lexLe_total as bs with ih | ih
      · left
        simp [lexLe, h1, h2, ih]
      · right
        simp [lexLe, h1, h2, ih]
    · right
      simp [lexLe, h]

theorem lexLe_trans : ∀ x y z : List Char,
    lexLe x y = true → lexLe y z = true → lexLe x z = true
  | [], _, _, _, _ => rfl
  | _ :: _, [], _, h1, _ => by simp [lexLe] at h1
  | _ :: _, _ :: _, [], _, h2 => by simp [lexLe] at h2
  | a :: as, b :: bs, c :: cs, h1, h2 => by
    rcases Nat.lt_trichotomy a.toNat b.toNat with hab | hab | hab
    · rcases Nat.lt_trichotomy b.toNat c.toNat with hbc | hbc | hbc
      · have : a.toNat < c.toNat := Nat.lt_trans hab hbc
        simp [lexLe, this]
      · have : a.toNat < c.toNat := hbc ▸ hab
        simp [lexLe, this]
      · have h3 : ¬ b.toNat < c.toNat := by omega
        simp [lexLe, h3, hbc] at h2
    · rcases Nat.lt_trichotomy b.toNat c.toNat with hbc | hbc | hbc
      · have : a.toNat < c.toNat := hab ▸ hbc
        simp [lexLe, this]
      · have hac : a.toNat = c.toNat := by omega
        have h3 : ¬ a.toNat < b.toNat := by omega
        have h4 : ¬ b.toNat < a.toNat := by omega
        have h5 : ¬ b.toNat < c.toNat := by omega
        have h6 : ¬ c.toNat < b.toNat := by omega
        have h7 : ¬ a.toNat < c.toNat := by omega
        have h8 : ¬ c.toNat < a.toNat := by omega
        simp [lexLe, h3, h4] at h1
        simp [lexLe, h5, h6] at h2
        simp [lexLe, h7, h8]
        exact lexLe_trans as bs cs h1 h2
      · have h3 : ¬ b.toNat < c.toNat := by omega
        simp [lexLe, h3, hbc] at h2
    · have h3 : ¬ a.toNat < b.toNat := by omega
      simp [lexLe, h3, hab] at h1

theorem lexLe_antisymm : ∀ x y : List Char,
    lexLe x y = true → lexLe y x = true → x = y
  | [], [], _, _ => rfl
  | [], _ :: _, _, h2 => by simp [lexLe] at h2
  | _ :: _, [], h1, _ => by simp [lexLe] at h1
  | a :: as, b :: bs, h1, h2 => by
    rcases Nat.lt_trichotomy a.toNat b.toNat with h | h | h
    · have h3 : ¬ b.toNat < a.toNat := by omega
      simp [lexLe, h3, h] at h2
    · have hab : a = b := Char.eq_of_val_eq (UInt32.ext h)
      subst hab
      have h3 : ¬ a.toNat < a.toNat := by omega
      simp [lexLe, h3] at h1 h2
      rw [lexLe_antisymm as bs h1 h2]
    · have h3 : ¬ a.toNat < b.toNat := by omega
      simp [lexLe, h3, h] at h1

theorem keyLe_antisymm {a b : String}
    (h1 : keyLe a b = true) (h2 : keyLe b a = true) : a = b := by
  cases a with
  | mk da =>
    cases b with
    | mk db =>
      simp only [keyLe] at h1 h2
      rw [lexLe_antisymm da db h1 h2]

/-- With duplicate-free keys, the lexicographic sort is sorted under
the key order strengthened with key distinctness. -/
theorem sortParams_sorted_ne (l : List (String × String))
    (h : (l.map Prod.fst).Nodup) :
    (sortParams l).Pairwise fun p q => keyLe p.1 q.1 = true ∧ p.1 ≠ q.1 := by
  haveI : IsTotal (String × String) fun p q => keyLe p.1 q.1 = true :=
    ⟨fun p q => lexLe_total p.1.data q.1.data⟩
  haveI : IsTrans (String × String) fun p q => keyLe p.1 q.1 = true :=
    ⟨fun p q r hpq hqr => lexLe_trans p.1.data q.1.data r.1.data hpq hqr⟩
  have hs : (sortParams l).Pairwise fun p q => keyLe p.1 q.1 = true :=
    List.sorted_insertionSort _ l
  have hp : List.Perm (sortParams l) l := List.perm_insertionSort _ l
  have hne : l.Pairwise fun p q => p.1 ≠ q.1 := List.pairwise_map.mp h
  have hne2 : (sortParams l).Pairwise fun p q => p.1 ≠ q.1 :=
    (hp.pairwise_iff fun h2 e => h2 e.symm).mpr hne
  exact hs.and hne2

/-- C2: connector parameter binding is a pure function of the
name-to-value map: for duplicate-free parameter names, any permutation
of the supplied map yields identical positional bindings. -/
theorem buildArgs_order_independent (ps qs : List (String × String))
    (hperm : List.Perm ps qs) (hnodup : (ps.map Prod.fst).Nodup) :
    buildArgs ps = buildArgs qs := by
  haveI : IsAntisymm (String × String)
      fun p q => keyLe p.1 q.1 = true ∧ p.1 ≠ q.1 :=
    ⟨fun _ _ h1 h2 => absurd (keyLe_antisymm h1.1 h2.1) h1.2⟩
  have hq : (qs.map Prod.fst).Nodup := ((hperm.map Prod.fst).nodup_iff).mp hnodup
  have h1 : List.Perm (sortParams ps) (sortParams qs) :=
    (List.perm_insertionSort _ ps).trans
      (hperm.trans (List.perm_insertionSort _ qs).symm)
  have h2 := sortParams_sorted_ne ps hnodup
  have h3 := sortParams_sorted_ne qs hq
  have h4 : sortParams ps = sortParams qs := List.eq_of_perm_of_sorted h1 h2 h3
  unfold buildArgs
  rw [h4]

/-- C2 witness: the example map `{zebra: Z, alpha: A, middle: M}`
submitted in two different key orders binds identically, to
`1 = A, 2 = M, 3 = Z`. -/
theorem buildArgs_order_independent_witness :
    buildArgs [("zebra", "Z"), ("alpha", "A"), ("middle", "M")] =
      buildArgs [("alpha", "A"), ("middle", "M"), ("zebra", "Z")] ∧
    buildArgs [("zebra", "Z"), ("alpha", "A"), ("middle", "M")] = ["A", "M", "Z"] :=
  ⟨buildArgs_order_independent _ _ (by decide) (by decide), by decide⟩

/-- Once alerted, a threshold stays recorded as alerted. -/
theorem mem_alerted_recordCost {b : Budget} {st : BudgetState} {c t : Nat}
    (h : t ∈ st.alerted) : t ∈ (recordCost b st c).1.alerted := by
  simp only [recordCost]
  exact List.mem_append_left _ h

/-- An already-alerted threshold is never fired again by a single
record. -/
theorem not_fired_of_alerted {b : Budget} {st : BudgetState} {c t : Nat}
    (h : t ∈ st.alerted) : t ∉ (recordCost b st c).2 := by
  intro hf
  simp only [recordCost] at hf
  obtain ⟨-, hcond⟩ := List.mem_filter.mp hf
  rw [Bool.and_eq_true] at hcond
  obtain ⟨-, hnc⟩ := hcond
  have hnm : t ∉ st.alerted := by simpa using hnc
  exact hnm h

/-- A fired threshold is recorded as alerted. -/
theorem mem_alerted_of_fired {b : Budget} {st : BudgetState} {c t : Nat}
    (h : t ∈ (recordCost b st c).2) : t ∈ (recordCost b st c).1.alerted := by
  simp only [recordCost] at h ⊢
  exact List.mem_append_right _ h

/-- An already-alerted threshold is never fired again for the rest of
the period. -/
theorem not_mem_runBudget_alerts {b : Budget} {t : Nat} :
    ∀ (costs : List Nat) (st : BudgetState), t ∈ st.alerted →
      t ∉ (runBudget b st costs).2 := by
  intro costs
  induction costs with
  | nil =>
    intro st _ hmem
    simp [runBudget] at hmem
  | cons c cs ih =>
    intro st h hmem
    simp only [runBudget] at hmem
    rcases List.mem_append.mp hmem with hf | hr
    · exact not_fired_of_alerted h hf
    · exact ih (recordCost b st c).1 (mem_alerted_recordCost h) hr

/-- Each threshold is alerted at most once per period. -/
theorem count_runBudget_alerts_le_one {b : Budget}
    (hnodup : b.alertThresholds.Nodup) (t : Nat) :
    ∀ (costs : List Nat) (st : BudgetState),
      (runBudget b st costs).2.count t ≤ 1 := by
  intro costs
  induction costs with
  | nil =>
    intro st
    simp [runBudget]
  | cons c cs ih =>
    intro st
    simp only [runBudget, List.count_append]
    by_cases hf : t ∈ (recordCost b st c).2
    · have h1 : (recordCost b st c).2.count t ≤ 1 := by
        have hnd : (recordCost b st c).2.Nodup := by
          simp only [recordCost]
          exact hnodup.filter _
        exact List.nodup_iff_count_le_one.mp hnd t
      have h2 : (runBudget b (recordCost b st c).1 cs).2.count t = 0 :=
        List.count_eq_zero.mpr
          (not_mem_runBudget_alerts cs _ (mem_alerted_of_fired hf))
      omega
    · have h1 : (recordCost b st c).2.count t = 0 := List.count_eq_zero.mpr hf
      have h2 := ih (recordCost b st c).1
      omega

/-- Within one period, a threshold alert is emitted iff the threshold
is configured, at least one cost was recorded, and cumulative usage
crossed the threshold. -/
theorem mem_runBudget_alerts_iff {b : Budget} {t : Nat} :
    ∀ (costs : List Nat) (u : Nat) (al : List Nat), t ∉ al →
      (t ∈ (runBudget b ⟨u, al⟩ costs).2 ↔
        t ∈ b.alertThresholds ∧ costs ≠ [] ∧
          t * b.limit ≤ 100 * (u + costs.sum)) := by
  intro costs
  induction costs with
  | nil =>
    intro u al _
    simp [runBudget]
  | cons c cs ih =>
    intro u al hal
    have hF : (recordCost b ⟨u, al⟩ c).2 =
        b.alertThresholds.filter fun s => crossed b s (u + c) && !al.contains s := rfl
    have hSt : (recordCost b ⟨u, al⟩ c).1 =
        ⟨u + c, al ++ (recordCost b ⟨u, al⟩ c).2⟩ := rfl
    constructor
    · intro hmem
      simp only [runBudget] at hmem
      rcases List.mem_append.mp hmem with hf | hr
      · rw [hF] at hf
        obtain ⟨ht, hcond⟩ := List.mem_filter.mp hf
        rw [Bool.and_eq_true] at hcond
        obtain ⟨hcr, -⟩ := hcond
        simp only [crossed, decide_eq_true_eq] at hcr
        refine ⟨ht, by simp, ?_⟩
        have hsum : u + c ≤ u + (c :: cs).sum := by
          simp only [List.sum_cons]
          omega
        omega
      · have hnf : t ∉ (recordCost b ⟨u, al⟩ c).2 := by
          intro hf
          exact not_mem_runBudget_alerts cs _ (mem_alerted_of_fired hf) hr
        have hnal : t ∉ al ++ (recordCost b ⟨u, al⟩ c).2 := by
          intro hm
          rcases List.mem_append.mp hm with h | h
          · exact hal h
          · exact hnf h
        rw [hSt] at hr
        obtain ⟨ht, -, hx⟩ := (ih (u + c) _ hnal).mp hr
        refine ⟨ht, by simp, ?_⟩
        simp only [List.sum_cons]
        omega
    · rintro ⟨ht, -, hx⟩
      simp only [List.sum_cons] at hx
      simp only [runBudget]
      by_cases hcx : t * b.limit ≤ 100 * (u + c)
      · apply List.mem_append_left
        rw [hF]
        refine List.mem_filter.mpr ⟨ht, ?_⟩
        rw [Bool.and_eq_true]
        refine ⟨by simp [crossed, hcx], by simpa using hal⟩
      · have hnf : t ∉ (recordCost b ⟨u, al⟩ c).2 := by
          intro hf
          rw [hF] at hf
          obtain ⟨-, hcond⟩ := List.mem_filter.mp hf
          rw [Bool.and_eq_true] at hcond
          obtain ⟨hcr, -⟩ := hcond
          simp only [crossed, decide_eq_true_eq] at hcr
          exact hcx hcr
        have hnal : t ∉ al ++ (recordCost b ⟨u, al⟩ c).2 := by
          intro hm
          rcases List.mem_append.mp hm with h | h
          · exact hal h
          · exact hnf h
        apply List.mem_append_right
        have hcs : cs ≠ [] := by
          intro hnil
          subst hnil
          simp at hx
          omega
        have := (ih (u + c) _ hnal).mpr ⟨ht, hcs, by omega⟩
        rw [hSt]
        exact this

/-- C5: with `on_exceed = block`, the pre-flight check denies exactly
when cumulative period usage has reached the limit; with
`on_exceed = warn` it always allows; over a period's recorded costs
each configured (duplicate-free) threshold is alerted at most once, and
is alerted at all iff some cost was recorded and cumulative usage
crossed it. -/
theorem budget_check_and_alerts (b : Budget) (st : BudgetState)
    (costs : List Nat) (t : Nat) (hnodup : b.alertThresholds.Nodup) :
    (b.onExceed = BudgetOnExceed.block →
      ((check b st).allowed = false ↔ b.limit ≤ st.usage)) ∧
    (b.onExceed = BudgetOnExceed.warn → (check b st).allowed = true) ∧
    (runBudget b freshPeriod costs).2.count t ≤ 1 ∧
    (t ∈ (runBudget b freshPeriod costs).2 ↔
      t ∈ b.alertThresholds ∧ costs ≠ [] ∧ t * b.limit ≤ 100 * costs.sum) := by
  refine ⟨?_, ?_, ?_, ?_⟩
  · intro h
    by_cases h2 : b.limit ≤ st.usage <;> simp [check, h, h2]
  · intro h
    by_cases h2 : b.limit ≤ st.usage <;> simp [check, h, h2]
  · exact count_runBudget_alerts_le_one hnodup t costs freshPeriod
  · have := mem_runBudget_alerts_iff (b := b) (t := t) costs 0 []
      (List.not_mem_nil t)
    simpa using this

/-- C5 witness: a $100 warn budget with thresholds 50/80/100 allows a
check at 120% usage; over costs 30+30 (of limit 100 cents) the 50%
threshold fires exactly once; a block budget denies at usage ≥ limit. -/
theorem budget_check_and_alerts_witness :
    (check ⟨10000, BudgetOnExceed.warn, [50, 80, 100]⟩ ⟨12000, []⟩).allowed = true ∧
    (runBudget ⟨100, BudgetOnExceed.warn, [50, 80, 100]⟩ freshPeriod
      [30, 30]).2.count 50 ≤ 1 ∧
    (check ⟨10000, BudgetOnExceed.block, [50, 80, 100]⟩ ⟨12000, []⟩).allowed = false :=
  ⟨(budget_check_and_alerts ⟨10000, BudgetOnExceed.warn, [50, 80, 100]⟩ ⟨12000, []⟩
      [] 0 (by decide)).2.1 rfl,
   (budget_check_and_alerts ⟨100, BudgetOnExceed.warn, [50, 80, 100]⟩ freshPeriod
      [30, 30] 50 (by decide)).2.2.1,
   ((budget_check_and_alerts ⟨10000, BudgetOnExceed.block, [50, 80, 100]⟩ ⟨12000, []⟩
      [] 0 (by decide)).1 rfl).mpr (by decide)⟩

theorem lt_length_of_getElem_eq_some {α : Type _} {l : List α} {n : Nat}
    {a : α} (h : l[n]? = some a) : n < l.length := by
  by_contra hn
  rw [List.getElem?_eq_none (Nat.le_of_not_lt hn)] at h
  cases h

theorem length_statusesUpTo (plan : List Step) (oracle : Nat → Bool) :
    ∀ n, (statusesUpTo plan oracle n).length = n := by
  intro n
  induction n with
  | zero => rfl
  | succ n ih => simp [statusesUpTo, ih]

/-- Each step's final status is the outcome computed from the statuses
of the steps before it. -/
theorem getElem_statusesUpTo (plan : List Step) (oracle : Nat → Bool) :
    ∀ {n i : Nat}, i < n →
      (statusesUpTo plan oracle n)[i]? =
        some (stepOutcome plan oracle (statusesUpTo plan oracle i) i) := by
  intro n
  induction n with
  | zero => intro i h; omega
  | succ n ih =>
    intro i h
    rcases Nat.lt_succ_iff_lt_or_eq.mp h with h' | rfl
    · rw [statusesUpTo, List.getElem?_append_left]
      · exact ih h'
      · rw [length_statusesUpTo]
        exact h'
    · rw [statusesUpTo]
      have hlen := length_statusesUpTo plan oracle i
      have hcat := List.getElem?_concat_length (statusesUpTo plan oracle i)
        (stepOutcome plan oracle (statusesUpTo plan oracle i) i)
      rw [hlen] at hcat
      exact hcat

theorem stepStatusOf_eq (plan : List Step) (oracle : Nat → Bool) {i : Nat}
    (h : i < plan.length) :
    stepStatusOf plan oracle i =
      stepOutcome plan oracle (statusesUpTo plan oracle i) i := by
  unfold stepStatusOf
  rw [List.getD_eq_getElem?_getD, getElem_statusesUpTo plan oracle h]
  rfl

theorem getElem_statuses_full {plan : List Step} {oracle : Nat → Bool}
    {d j : Nat} (hdj : d < j) (hj : j ≤ plan.length) :
    (statusesUpTo plan oracle j)[d]? = some (stepStatusOf plan oracle d) := by
  rw [getElem_statusesUpTo plan oracle hdj,
    stepStatusOf_eq plan oracle (lt_of_lt_of_le hdj hj)]

theorem topoSorted_spec {plan : List Step} (hts : topoSortedB plan = true) :
    ∀ (j : Nat) (s : Step), plan[j]? = some s → ∀ d ∈ s.dependsOn, d < j := by
  intro j s hj d hd
  have hjlen : j < plan.length := lt_length_of_getElem_eq_some hj
  unfold topoSortedB at hts
  have h1 := List.all_eq_true.mp hts j (List.mem_range.mpr hjlen)
  have hdeps : depsAt plan j = s.dependsOn := by simp [depsAt, hj]
  have h2 := List.all_eq_true.mp h1 d (hdeps ▸ hd)
  exact of_decide_eq_true h2

/-- C8: in a topologically listed plan, when a required (non-optional)
step ends `failed`, every transitive dependent of it ends `skipped`,
and the execution's final status is not `completed`. -/
theorem required_failure_skips_dependents
    (plan : List Step) (oracle : Nat → Bool) (i j : Nat) (s : Step)
    (hts : topoSortedB plan = true)
    (hi : plan[i]? = some s) (hreq : s.optional = false)
    (hfail : stepStatusOf plan oracle i = StepStatus.failed)
    (hdep : DependsOn plan j i) :
    stepStatusOf plan oracle j = StepStatus.skipped ∧
    finalStatus plan oracle ≠ ExecStatus.completed := by
  have hwf := topoSorted_spec hts
  constructor
  · induction hdep with
    | @direct i' j' s' hj hmem =>
      have hjlen : j' < plan.length := lt_length_of_getElem_eq_some hj
      rw [stepStatusOf_eq plan oracle hjlen]
      unfold stepOutcome
      have hij : i' < j' := hwf j' s' hj i' hmem
      have hblk : depBlocks plan (statusesUpTo plan oracle j') i' = true := by
        unfold depBlocks
        rw [getElem_statuses_full hij (le_of_lt hjlen), hfail]
        simp only [hi, hreq]
        rfl
      have hany : s'.dependsOn.any
          (depBlocks plan (statusesUpTo plan oracle j')) = true :=
        List.any_eq_true.mpr ⟨i', hmem, hblk⟩
      simp only [hj, hany]
      rfl
    | @trans i' j' k s' hj hmem hsub ih =>
      have hk := ih hi hfail
      have hjlen : j' < plan.length := lt_length_of_getElem_eq_some hj
      rw [stepStatusOf_eq plan oracle hjlen]
      unfold stepOutcome
      have hkj : k < j' := hwf j' s' hj k hmem
      have hblk : depBlocks plan (statusesUpTo plan oracle j') k = true := by
        unfold depBlocks
        rw [getElem_statuses_full hkj (le_of_lt hjlen), hk]
      have hany : s'.dependsOn.any
          (depBlocks plan (statusesUpTo plan oracle j')) = true :=
        List.any_eq_true.mpr ⟨k, hmem, hblk⟩
      simp only [hj, hany]
      rfl
  · have hilen : i < plan.length := lt_length_of_getElem_eq_some hi
    have hrf : requiredFailed plan oracle = true := by
      apply List.any_eq_true.mpr
      refine ⟨i, List.mem_range.mpr hilen, ?_⟩
      simp only [hi, hreq, hfail]
      rfl
    have hfs : finalStatus plan oracle =
        if (List.range plan.length).any
            (fun i => stepStatusOf plan oracle i == StepStatus.completed) then
          ExecStatus.mixedOutcome
        else ExecStatus.failed := by
      simp [finalStatus, hrf]
    rw [hfs]
    split <;> decide

/-- C8 witness: a three-step chain whose required root step fails; both
transitive dependents end `skipped` and the run is not `completed`. -/
theorem required_failure_skips_dependents_witness :
    stepStatusOf [⟨"fetch", [], false⟩, ⟨"transform", [0], false⟩, ⟨"load", [1], false⟩]
      (fun i => i != 0) 2 = StepStatus.skipped ∧
    finalStatus [⟨"fetch", [], false⟩, ⟨"transform", [0], false⟩, ⟨"load", [1], false⟩]
      (fun i => i != 0) ≠ ExecStatus.completed :=
  required_failure_skips_dependents
    [⟨"fetch", [], false⟩, ⟨"transform", [0], false⟩, ⟨"load", [1], false⟩]
    (fun i => i != 0) 0 2 ⟨"fetch", [], false⟩ (by decide) rfl rfl (by decide)
    (DependsOn.trans (k := 1) (s := ⟨"load", [1], false⟩) rfl (by decide)
      (DependsOn.direct (s := ⟨"transform", [0], false⟩) rfl (by decide)))

/-- No member of a dependency-closed set of steps (every member has a
dependency in the set — the shape of a cycle) is ever removed by
Kahn-style elimination. -/
theorem cycle_never_removed (plan : List Step) (S : List Nat)
    (hcyc : ∀ i ∈ S, i < plan.length ∧ ∃ d ∈ depsAt plan i, d ∈ S) :
    ∀ n, ∀ i ∈ S, i ∉ elimIter plan n := by
  intro n
  induction n with
  | zero =>
    intro i _ h
    exact absurd h (List.not_mem_nil i)
  | succ n ih =>
    intro i hiS hmem
    rw [elimIter] at hmem
    unfold elimRound at hmem
    rcases List.mem_append.mp hmem with h | h
    · exact ih i hiS h
    · obtain ⟨-, hpred⟩ := List.mem_filter.mp h
      obtain ⟨-, d, hd, hdS⟩ := hcyc i hiS
      cases hgi : plan[i]? with
      | none =>
        rw [depsAt, hgi] at hd
        cases hd
      | some s =>
        rw [hgi] at hpred
        rw [Bool.and_eq_true] at hpred
        obtain ⟨-, hall⟩ := hpred
        rw [depsAt, hgi] at hd
        have hcont := List.all_eq_true.mp hall d hd
        have hdmem : d ∈ elimIter plan n := by simpa using hcont
        exact ih d hdS hdmem

/-- C9: a plan whose step graph contains a dependency cycle (witnessed
by a dependency-closed set `S` with a member in range) is rejected by
validation, and `execute_plan` returns `MalformedPlan` for every
outcome oracle without running any step. -/
theorem cyclic_plan_rejected (plan : List Step) (S : List Nat) (i₀ : Nat)
    (h₀ : i₀ ∈ S)
    (hcyc : ∀ i ∈ S, i < plan.length ∧ ∃ d ∈ depsAt plan i, d ∈ S) :
    validatePlan plan = false ∧
    ∀ oracle : Nat → Bool,
      executePlan plan oracle = Except.error PlanError.malformedPlan := by
  have hnot := cycle_never_removed plan S hcyc plan.length i₀ h₀
  have hlen := (hcyc i₀ h₀).1
  have hv : validatePlan plan = false := by
    unfold validatePlan
    cases hV : (List.range plan.length).all
        (fun i => (elimIter plan plan.length).contains i) with
    | false => rfl
    | true =>
      exfalso
      have hc := List.all_eq_true.mp hV i₀ (List.mem_range.mpr hlen)
      have : i₀ ∈ elimIter plan plan.length := by simpa using hc
      exact hnot this
  refine ⟨hv, fun oracle => ?_⟩
  unfold executePlan
  simp [hv]

/-- C9 witness: the two-step plan `a ↔ b` (mutual dependency) is
rejected and never executed. -/
theorem cyclic_plan_rejected_witness :
    validatePlan [⟨"a", [1], false⟩, ⟨"b", [0], false⟩] = false ∧
    executePlan [⟨"a", [1], false⟩, ⟨"b", [0], false⟩] (fun _ => true) =
      Except.error PlanError.malformedPlan :=
  ⟨(cyclic_plan_rejected [⟨"a", [1], false⟩, ⟨"b", [0], false⟩] [0, 1] 0
      (by decide) (by decide)).1,
   (cyclic_plan_rejected [⟨"a", [1], false⟩, ⟨"b", [0], false⟩] [0, 1] 0
      (by decide) (by decide)).2 (fun _ => true)⟩

/-- C3 amended-claim witness: the phone-only query is approved with the
phone policy surfaced; the email query is blocked. -/
theorem pii_phone_warn_email_block_witness :
    ((evaluate defaultPolicies "Call customer at +1-555-123-4567" []).approved = true ∧
      phonePolicy.id ∈
        (evaluate defaultPolicies "Call customer at +1-555-123-4567" []).matchedPolicies) ∧
    (evaluate defaultPolicies "Send invoice to john.doe@example.com" []).approved = false :=
  ⟨pii_phone_warn_email_block.1 "Call customer at +1-555-123-4567" []
      (by decide) (by decide) (by decide) (by decide) (by decide) (by decide)
      (by decide) (by decide) (by decide) (by decide),
   pii_phone_warn_email_block.2 "Send invoice to john.doe@example.com" [] (by decide)⟩

end AxonFlow
